import Mathlib

set_option maxRecDepth 100000

/-!
# GenTaxAI — verification of the context-assembly and conversation-state engine

Shallow embedding of `src/gentaxai/main.py`. The HTTP layer, the retrieval
implementation (`gentaxai.knowledge.retrieve`) and the LLM client (`llm.invoke`)
are external collaborators: their outcomes are passed to the embedded endpoint
as explicit parameters. File I/O is modelled by a JSON value type: persisting
writes the JSON encoding of the in-memory store; reloading decodes it.
-/

namespace GenTaxAI

/-- A transcript turn, mirroring the Python dicts `{"role": ..., "content": ...}`. -/
structure Turn where
  role : String
  content : String
deriving DecidableEq, Repr

/-- The in-memory session store `CONVERSATIONS : Dict[str, List[Dict[str, str]]]`.
A Python dict is modelled as an insertion-ordered association list. -/
abbrev Store := List (String × List Turn)

/-- A retrieved knowledge snippet as consumed by `chat_endpoint`: a dict whose
fields `source`, `chunk_id`, `text` may each be missing (`hit.get(...)` with a
default). Values are taken to be strings, matching the `str(...)` coercions. -/
structure Snippet where
  source : Option String
  chunk_id : Option String
  text : Option String
deriving DecidableEq, Repr

/-- The request body `ChatQuery(question: str, session_id: Optional[str])`.
`question` is `Option String` so that the guard `(query.question or "")` covers
an absent value as well as the empty string. -/
structure ChatQuery where
  question : Option String
  session_id : Option String
deriving DecidableEq, Repr

/-- A citation record `{"id": ..., "source": ..., "chunk_id": ...}` returned to
the caller. -/
structure Citation where
  id : String
  source : String
  chunk_id : String
deriving DecidableEq, Repr

/-- Outcome of the endpoint: either an `HTTPException(status_code, detail)` or a
`ChatResponse(answer, session_id, citations)`. -/
inductive ChatResult where
| err (status : Nat) (detail : String)
| ok (answer : String) (session_id : String) (citations : List Citation)
deriving DecidableEq, Repr

/-- The messages handed to the inference collaborator, mirroring
`SystemMessage` / `HumanMessage` / `AIMessage` from `langchain.schema`. -/
inductive LCMessage where
| systemMsg (content : String)
| humanMsg (content : String)
| aiMsg (content : String)
deriving DecidableEq, Repr

/-- `SYSTEM_PROMPT` from `main.py`, the fixed instruction preamble. -/
def SYSTEM_PROMPT : String :=
  "You are GenTaxAI, a precise and helpful Indian tax assistant.\n" ++
  "You specialize in Indian taxation including Income Tax, GST, MSME, RBI, SEBI and related compliance.\n" ++
  "Use the provided CONTEXT snippets as the primary source of truth. If a user asks " ++
  "for something covered in context, quote or paraphrase that accurately. If the answer " ++
  "is not in context, answer from your knowledge carefully and clearly say when you are not certain.\n" ++
  "Always prefer official wording in the snippets when giving definitions or rules.\n" ++
  "Keep responses concise but comprehensive."

/-- The system turn inserted at session creation:
`{"role": "system", "content": SYSTEM_PROMPT}`. -/
def systemTurn : Turn := ⟨"system", SYSTEM_PROMPT⟩

/-- Python `str.strip()`: drop leading and trailing whitespace characters.
Modelled structurally on the character list so that it is kernel-computable. -/
def pyStrip (s : String) : String :=
  ⟨((s.data.dropWhile Char.isWhitespace).reverse.dropWhile Char.isWhitespace).reverse⟩

/-- Dict lookup `CONVERSATIONS[session_id]` / membership `session_id in CONVERSATIONS`. -/
def findSession : Store → String → Option (List Turn)
| [], _ => none
| (k, v) :: rest, sid => if k = sid then some v else findSession rest sid

/-- List mutation `CONVERSATIONS[session_id].append(turn)`: the transcript
stored under `sid` gains `t` at its end; every other entry is unchanged. -/
def pushTurn : Store → String → Turn → Store
| [], _, _ => []
| (k, v) :: rest, sid, t => (k, if k = sid then v ++ [t] else v) :: pushTurn rest sid t

/-- `if session_id not in CONVERSATIONS: CONVERSATIONS[session_id] = [system turn]`;
a new dict key is inserted at the end (Python insertion order). -/
def ensureSession (s : Store) (sid : String) : Store :=
  if findSession s sid = none then s ++ [(sid, [systemTurn])] else s

/-- `session_id = query.session_id or str(uuid.uuid4())`: Python `or` replaces
both `None` and the falsy empty string by the fresh UUID. -/
def resolveSessionId (sid : Option String) (fresh : String) : String :=
  match sid with
  | none => fresh
  | some s => if s = "" then fresh else s

/-- `kb_hits = retrieve(question, k=5) or []` wrapped in `try/except` that
logs and falls back to `[]`: an exception, a `None` return and an empty list
all yield `[]`. -/
def kbHits (rres : Except String (Option (List Snippet))) : List Snippet :=
  match rres with
  | .error _ => []
  | .ok o => o.getD []

/-- The `for i, hit in enumerate(kb_hits, start=1)` loop body: accumulates
`context_texts` and `citations_payload` in input order. -/
def buildContext : Nat → List Snippet → List String × List Citation
| _, [] => ([], [])
| i, hit :: rest =>
  let source := hit.source.getD "knowledge_base"
  let chunk_id := hit.chunk_id.getD (toString i)
  let text := pyStrip (hit.text.getD "")
  let tag := "[" ++ toString i ++ "] " ++ source ++ "#chunk" ++ chunk_id
  let tail := buildContext (i + 1) rest
  ((tag ++ "\n" ++ text) :: tail.1, ⟨toString i, source, chunk_id⟩ :: tail.2)

/-- `to_langchain_messages`: converts the stored history to typed messages,
skipping any turn with an unknown role. -/
def to_langchain_messages : List Turn → List LCMessage
| [] => []
| t :: rest =>
  let tail := to_langchain_messages rest
  if t.role = "system" then .systemMsg t.content :: tail
  else if t.role = "user" then .humanMsg t.content :: tail
  else if t.role = "assistant" then .aiMsg t.content :: tail
  else tail

/-- Result of one call to the endpoint: the HTTP-level result, the updated
in-memory store, whether `save_sessions()` was invoked, and (for observing the
collaborator interface) the query/k passed to `retrieve` and the messages
passed to `llm.invoke`, when those calls were reached. -/
structure ChatOutcome where
  result : ChatResult
  store : Store
  saved : Bool
  retrievalQuery : Option (String × Nat)
  inferenceInput : Option (List LCMessage)
deriving DecidableEq, Repr

/-- `chat_endpoint` from `main.py`. The outcomes of the two opaque
collaborators are parameters: `rres` is what `retrieve(question, k=5)` did
(raise, return `None`, or return a list) and `ires` is what `llm.invoke` did
(raise, or return a response whose `.content` is the answer). `fresh` is the
`str(uuid.uuid4())` value drawn when no session id is supplied. -/
def chat_endpoint (query : ChatQuery) (fresh : String)
    (rres : Except String (Option (List Snippet)))
    (ires : Except String String)
    (conversations : Store) : ChatOutcome :=
  let question := pyStrip (query.question.getD "")
  if question = "" then
    { result := .err 400 "Empty question", store := conversations, saved := false,
      retrievalQuery := none, inferenceInput := none }
  else
    let session_id := resolveSessionId query.session_id fresh
    let conv1 := ensureSession conversations session_id
    let kb_hits := kbHits rres
    let built := buildContext 1 kb_hits
    let conv2 :=
      if kb_hits = [] then conv1
      else pushTurn conv1 session_id
        ⟨"assistant", "CONTEXT:\n" ++ String.intercalate "\n\n" built.1⟩
    let conv3 := pushTurn conv2 session_id ⟨"user", question⟩
    let lc_messages := to_langchain_messages ((findSession conv3 session_id).getD [])
    match ires with
    | .error e =>
      { result := .err 500 ("LLM error: " ++ e), store := conv3, saved := false,
        retrievalQuery := some (question, 5), inferenceInput := some lc_messages }
    | .ok answer =>
      { result := .ok answer session_id built.2,
        store := pushTurn conv3 session_id ⟨"assistant", answer⟩, saved := true,
        retrievalQuery := some (question, 5), inferenceInput := some lc_messages }

/-- The evidence turn assembled from a non-empty list of snippets. -/
def evidenceTurn (hits : List Snippet) : Turn :=
  ⟨"assistant", "CONTEXT:\n" ++ String.intercalate "\n\n" (buildContext 1 hits).1⟩

/-- The turns a non-blank exchange appends for retrieval outcome `rres` and
inference outcome `ires`: optional evidence turn, then the user turn, then the
answer turn when inference succeeded. -/
def newTurns (question : String) (rres : Except String (Option (List Snippet)))
    (ires : Except String String) : List Turn :=
  (if kbHits rres = [] then [] else [evidenceTurn (kbHits rres)])
    ++ [⟨"user", question⟩]
    ++ (match ires with | .error _ => [] | .ok ans => [⟨"assistant", ans⟩])

/-- The JSON values involved in `save_sessions` / the startup load: the store
is a JSON object mapping session ids to arrays of `{role, content}` objects. -/
inductive Json where
| str : String → Json
| arr : List Json → Json
| obj : List (String × Json) → Json

/-- How `json.dump` renders one turn dict. -/
def encodeTurn (t : Turn) : Json :=
  .obj [("role", .str t.role), ("content", .str t.content)]

/-- How `json.dump(CONVERSATIONS, f, indent=2, ensure_ascii=False)` renders the
store as a JSON value (presentation details such as indentation do not affect
the value). -/
def encodeStore (s : Store) : Json :=
  .obj (s.map fun p => (p.1, .arr (p.2.map encodeTurn)))

/-- Reading back one `{role, content}` object as a turn. -/
def decodeTurn : Json → Option Turn
| .obj [("role", .str r), ("content", .str c)] => some ⟨r, c⟩
| _ => none

/-- Reading back a JSON array of turn objects. -/
def decodeTurnList : List Json → Option (List Turn)
| [] => some []
| j :: js =>
  match decodeTurn j, decodeTurnList js with
  | some t, some ts => some (t :: ts)
  | _, _ => none

/-- Reading back a JSON value as one transcript (a JSON array of turn objects). -/
def decodeTranscript : Json → Option (List Turn)
| .arr js => decodeTurnList js
| _ => none

/-- Reading back the entries of the top-level JSON object. -/
def decodeEntries : List (String × Json) → Option Store
| [] => some []
| (k, v) :: rest =>
  match decodeTranscript v, decodeEntries rest with
  | some ts, some s => some ((k, ts) :: s)
  | _, _ => none

/-- How the startup `json.load` of `sessions.json` is interpreted as the typed
store `Dict[str, List[Dict[str, str]]]`. -/
def decodeStore : Json → Option Store
| .obj entries => decodeEntries entries
| _ => none

/-- The content of the backing `sessions.json` after one call of the endpoint:
`save_sessions()` is invoked only on the success path and rewrites the file in
full with the encoding of the whole store; otherwise the file is untouched. -/
def fileAfter (o : ChatOutcome) (file : Option Json) : Option Json :=
  if o.saved then some (encodeStore o.store) else file

/-- The store invariant of the spec: every transcript in the store starts with
the fixed system turn and contains exactly one `system`-role turn. -/
def GoodStore (s : Store) : Prop :=
  ∀ sid ts, findSession s sid = some ts →
    ts.head? = some systemTurn ∧ ts.countP (fun t => t.role == "system") = 1

/-- One inbound exchange: the request plus the behavior of the two opaque
collaborators and the fresh UUID drawn for it. -/
structure Exchange where
  query : ChatQuery
  fresh : String
  rres : Except String (Option (List Snippet))
  ires : Except String String

/-- The store produced by one exchange. -/
def stepStore (s : Store) (e : Exchange) : Store :=
  (chat_endpoint e.query e.fresh e.rres e.ires s).store

/-- The store reached from the empty store by a sequence of exchanges. -/
def runExchanges (es : List Exchange) : Store :=
  es.foldl stepStore []

/-! ## Basic lemmas about the store operations -/

theorem findSession_pushTurn (s : Store) (sid : String) (t : Turn) (sid' : String) :
    findSession (pushTurn s sid t) sid' =
      (findSession s sid').map (fun v => if sid' = sid then v ++ [t] else v) := by
  induction s with
  | nil => rfl
  | cons p rest ih =>
    obtain ⟨k, v⟩ := p
    by_cases hk' : k = sid'
    · subst hk'
      by_cases hk : k = sid <;> simp [pushTurn, findSession, hk]
    · simp [pushTurn, findSession, hk', ih]

theorem findSession_append_of_none (a b : Store) (sid : String)
    (h : findSession a sid = none) :
    findSession (a ++ b) sid = findSession b sid := by
  induction a with
  | nil => rfl
  | cons p rest ih =>
    obtain ⟨k, v⟩ := p
    by_cases hk : k = sid
    · simp [findSession, hk] at h
    · simp only [findSession, hk, if_false, List.cons_append] at h ⊢
      exact ih h

theorem findSession_append_of_some (a b : Store) (sid : String) (v : List Turn)
    (h : findSession a sid = some v) :
    findSession (a ++ b) sid = some v := by
  induction a with
  | nil => cases h
  | cons p rest ih =>
    obtain ⟨k, w⟩ := p
    by_cases hk : k = sid <;>
      simp only [findSession, hk, if_true, if_false, List.cons_append] at h ⊢
    · exact h
    · exact ih h

theorem findSession_ensureSession_self (s : Store) (sid : String) :
    findSession (ensureSession s sid) sid =
      some ((findSession s sid).getD [systemTurn]) := by
  unfold ensureSession
  by_cases h : findSession s sid = none
  · rw [if_pos h, findSession_append_of_none _ _ _ h, h]
    simp [findSession]
  · obtain ⟨v, hv⟩ := Option.ne_none_iff_exists'.mp h
    rw [if_neg h, hv]
    rfl

theorem findSession_ensureSession_other (s : Store) (sid sid' : String)
    (h : sid' ≠ sid) :
    findSession (ensureSession s sid) sid' = findSession s sid' := by
  unfold ensureSession
  by_cases hn : findSession s sid = none
  · rw [if_pos hn]
    cases hmem : findSession s sid' with
    | some v => exact findSession_append_of_some _ _ _ _ hmem
    | none =>
      rw [findSession_append_of_none _ _ _ hmem]
      simp [findSession, Ne.symm h]
  · rw [if_neg hn]

/-- Master characterization of the transcript of the addressed session after a
non-blank exchange: the prior transcript (or a fresh `[systemTurn]`) followed
by `newTurns`. -/
theorem findSession_chat_store (query : ChatQuery) (fresh : String)
    (rres : Except String (Option (List Snippet))) (ires : Except String String)
    (conversations : Store)
    (hq : pyStrip (query.question.getD "") ≠ "") :
    findSession (chat_endpoint query fresh rres ires conversations).store
        (resolveSessionId query.session_id fresh) =
      some ((findSession conversations (resolveSessionId query.session_id fresh)).getD [systemTurn]
        ++ newTurns (pyStrip (query.question.getD "")) rres ires) := by
  simp only [chat_endpoint]
  rw [if_neg hq]
  cases ires with
  | error e =>
    by_cases hkb : kbHits rres = [] <;>
      simp [hkb, newTurns, findSession_pushTurn, findSession_ensureSession_self, evidenceTurn]
  | ok ans =>
    by_cases hkb : kbHits rres = [] <;>
      simp [hkb, newTurns, findSession_pushTurn, findSession_ensureSession_self, evidenceTurn]

/-- A non-blank exchange leaves every other session's transcript unchanged. -/
theorem findSession_chat_store_other (query : ChatQuery) (fresh : String)
    (rres : Except String (Option (List Snippet))) (ires : Except String String)
    (conversations : Store) (sid' : String)
    (h : sid' ≠ resolveSessionId query.session_id fresh) :
    findSession (chat_endpoint query fresh rres ires conversations).store sid' =
      findSession conversations sid' := by
  simp only [chat_endpoint]
  by_cases hq : pyStrip (query.question.getD "") = ""
  · rw [if_pos hq]
  · rw [if_neg hq]
    cases ires with
    | error e =>
      by_cases hkb : kbHits rres = [] <;>
        simp [hkb, findSession_pushTurn, findSession_ensureSession_other _ _ _ h, h]
    | ok ans =>
      by_cases hkb : kbHits rres = [] <;>
        simp [hkb, findSession_pushTurn, findSession_ensureSession_other _ _ _ h, h]

/-! ## Closed forms of the context-assembly loop -/

theorem buildContext_fst (i : Nat) (hits : List Snippet) :
    (buildContext i hits).1 = (List.enumFrom i hits).map (fun p =>
      "[" ++ toString p.1 ++ "] " ++ p.2.source.getD "knowledge_base"
        ++ "#chunk" ++ p.2.chunk_id.getD (toString p.1)
        ++ "\n" ++ pyStrip (p.2.text.getD "")) := by
  induction hits generalizing i with
  | nil => rfl
  | cons hit rest ih => simp [buildContext, List.enumFrom_cons, ih]

theorem buildContext_snd (i : Nat) (hits : List Snippet) :
    (buildContext i hits).2 = (List.enumFrom i hits).map (fun p =>
      (⟨toString p.1, p.2.source.getD "knowledge_base",
        p.2.chunk_id.getD (toString p.1)⟩ : Citation)) := by
  induction hits generalizing i with
  | nil => rfl
  | cons hit rest ih => simp [buildContext, List.enumFrom_cons, ih]

/-! ## Preservation of the transcript invariant -/

theorem goodStore_nil : GoodStore [] := by
  intro sid ts h
  cases h

theorem goodStore_pushTurn (s : Store) (sid : String) (t : Turn)
    (ht : (t.role == "system") = false) (h : GoodStore s) :
    GoodStore (pushTurn s sid t) := by
  intro sid' ts' hfind
  rw [findSession_pushTurn] at hfind
  cases hmem : findSession s sid' with
  | none => rw [hmem] at hfind; cases hfind
  | some ts =>
    rw [hmem] at hfind
    obtain ⟨h1, h2⟩ := h sid' ts hmem
    have hne : ts ≠ [] := by
      intro hnil
      rw [hnil] at h1
      cases h1
    rw [Option.map_some'] at hfind
    injection hfind with hfind
    by_cases hsid : sid' = sid
    · rw [if_pos hsid] at hfind
      subst hfind
      constructor
      · rw [List.head?_append_of_ne_nil _ hne]
        exact h1
      · rw [List.countP_append, h2]
        simp [List.countP_cons, ht]
    · rw [if_neg hsid] at hfind
      subst hfind
      exact ⟨h1, h2⟩

theorem goodStore_ensureSession (s : Store) (sid : String) (h : GoodStore s) :
    GoodStore (ensureSession s sid) := by
  intro sid' ts' hfind
  unfold ensureSession at hfind
  by_cases hn : findSession s sid = none
  · rw [if_pos hn] at hfind
    cases hmem : findSession s sid' with
    | some ts =>
      rw [findSession_append_of_some _ _ _ _ hmem] at hfind
      injection hfind with hfind
      subst hfind
      exact h _ _ hmem
    | none =>
      rw [findSession_append_of_none _ _ _ hmem] at hfind
      simp only [findSession] at hfind
      by_cases hsid : sid = sid'
      · rw [if_pos hsid] at hfind
        injection hfind with hfind
        subst hfind
        constructor
        · rfl
        · simp [List.countP_cons, systemTurn]
      · rw [if_neg hsid] at hfind
        cases hfind
  · rw [if_neg hn] at hfind
    exact h sid' ts' hfind

theorem goodStore_chat (query : ChatQuery) (fresh : String)
    (rres : Except String (Option (List Snippet))) (ires : Except String String)
    (conversations : Store) (h : GoodStore conversations) :
    GoodStore (chat_endpoint query fresh rres ires conversations).store := by
  simp only [chat_endpoint]
  by_cases hq : pyStrip (query.question.getD "") = ""
  · rw [if_pos hq]
    exact h
  · rw [if_neg hq]
    have h1 := goodStore_ensureSession conversations
      (resolveSessionId query.session_id fresh) h
    have h2 : GoodStore (if kbHits rres = []
        then ensureSession conversations (resolveSessionId query.session_id fresh)
        else pushTurn (ensureSession conversations (resolveSessionId query.session_id fresh))
          (resolveSessionId query.session_id fresh)
          ⟨"assistant", "CONTEXT:\n" ++ String.intercalate "\n\n" (buildContext 1 (kbHits rres)).1⟩) := by
      by_cases hkb : kbHits rres = []
      · rw [if_pos hkb]; exact h1
      · rw [if_neg hkb]
        exact goodStore_pushTurn _ _ _ rfl h1
    have h3 := goodStore_pushTurn _ (resolveSessionId query.session_id fresh)
      ⟨"user", pyStrip (query.question.getD "")⟩ rfl h2
    cases ires with
    | error e => exact h3
    | ok ans =>
      exact goodStore_pushTurn _ (resolveSessionId query.session_id fresh)
        ⟨"assistant", ans⟩ rfl h3

theorem goodStore_foldl (es : List Exchange) (s : Store) (h : GoodStore s) :
    GoodStore (es.foldl stepStore s) := by
  induction es generalizing s with
  | nil => exact h
  | cons e rest ih =>
    exact ih _ (goodStore_chat e.query e.fresh e.rres e.ires s h)

/-! ## JSON round trip -/

theorem decodeTurn_encodeTurn (t : Turn) : decodeTurn (encodeTurn t) = some t := by
  cases t
  rfl

theorem decodeTurnList_map (ts : List Turn) :
    decodeTurnList (ts.map encodeTurn) = some ts := by
  induction ts with
  | nil => rfl
  | cons t rest ih => simp [decodeTurnList, decodeTurn_encodeTurn, ih]

theorem decodeEntries_map (s : Store) :
    decodeEntries (s.map fun p => (p.1, Json.arr (p.2.map encodeTurn))) = some s := by
  induction s with
  | nil => rfl
  | cons p rest ih =>
    obtain ⟨k, v⟩ := p
    simp [decodeEntries, decodeTranscript, decodeTurnList_map, ih]

/-! ## The claims -/

/-- C1: for every successful exchange (non-blank question, inference succeeds),
the turns appended to the session's transcript are, in this order: an
assistant-role evidence turn (only when retrieval produced at least one
snippet), then the user-role turn with the question, then the assistant-role
turn with the answer; a user turn is never appended before the evidence turn of
the same exchange. -/
theorem exchange_appends_in_order (query : ChatQuery) (fresh : String)
    (rres : Except String (Option (List Snippet))) (ans : String)
    (conversations : Store)
    (hq : pyStrip (query.question.getD "") ≠ "") :
    findSession (chat_endpoint query fresh rres (Except.ok ans) conversations).store
        (resolveSessionId query.session_id fresh) =
      some ((findSession conversations (resolveSessionId query.session_id fresh)).getD [systemTurn]
        ++ (if kbHits rres = [] then []
            else [⟨"assistant", (evidenceTurn (kbHits rres)).content⟩])
        ++ [⟨"user", pyStrip (query.question.getD "")⟩, ⟨"assistant", ans⟩]) := by
  have h := findSession_chat_store query fresh rres (Except.ok ans) conversations hq
  simpa [newTurns, evidenceTurn] using h

theorem exchange_appends_in_order_witness :
    pyStrip ((some " q " : Option String).getD "") ≠ "" ∧
    findSession (chat_endpoint ⟨some " q ", some "s"⟩ "f"
        (Except.ok (some [⟨none, none, none⟩])) (Except.ok "a") []).store "s" =
      some [systemTurn, ⟨"assistant", "CONTEXT:\n[1] knowledge_base#chunk1\n"⟩,
        ⟨"user", "q"⟩, ⟨"assistant", "a"⟩] := by
  have h := exchange_appends_in_order ⟨some " q ", some "s"⟩ "f"
    (Except.ok (some [⟨none, none, none⟩])) "a" [] (by decide)
  exact ⟨by decide, h.trans (by decide)⟩

/-- C2: every session reachable from the empty store by any sequence of
exchanges has a transcript whose first turn is the fixed system preamble, and
which contains exactly one system-role turn. -/
theorem reachable_store_system_first (es : List Exchange) (sid : String)
    (ts : List Turn) (h : findSession (runExchanges es) sid = some ts) :
    ts.head? = some systemTurn ∧ ts.countP (fun t => t.role == "system") = 1 :=
  goodStore_foldl es [] goodStore_nil sid ts h

theorem reachable_store_system_first_witness :
    findSession (runExchanges [⟨⟨some "q", some "s"⟩, "f", Except.ok none, Except.ok "a"⟩,
        ⟨⟨some "r", some "s"⟩, "g", Except.ok none, Except.ok "b"⟩]) "s" =
      some [systemTurn, ⟨"user", "q"⟩, ⟨"assistant", "a"⟩,
        ⟨"user", "r"⟩, ⟨"assistant", "b"⟩] ∧
    ([systemTurn, ⟨"user", "q"⟩, ⟨"assistant", "a"⟩,
        ⟨"user", "r"⟩, ⟨"assistant", "b"⟩] : List Turn).head? = some systemTurn ∧
    ([systemTurn, ⟨"user", "q"⟩, ⟨"assistant", "a"⟩,
        ⟨"user", "r"⟩, ⟨"assistant", "b"⟩] : List Turn).countP
      (fun t => t.role == "system") = 1 := by
  refine ⟨by decide, reachable_store_system_first
    [⟨⟨some "q", some "s"⟩, "f", Except.ok none, Except.ok "a"⟩,
      ⟨⟨some "r", some "s"⟩, "g", Except.ok none, Except.ok "b"⟩] "s"
    [systemTurn, ⟨"user", "q"⟩, ⟨"assistant", "a"⟩,
      ⟨"user", "r"⟩, ⟨"assistant", "b"⟩] (by decide)⟩

/-- C3: when the inference collaborator fails, the caller receives the
inference-error result, and the transcript keeps the evidence turn (if any) and
the user turn appended earlier in the same exchange, with no answer turn. -/
theorem inference_failure_surfaces_error (query : ChatQuery) (fresh : String)
    (rres : Except String (Option (List Snippet))) (e : String)
    (conversations : Store)
    (hq : pyStrip (query.question.getD "") ≠ "") :
    (chat_endpoint query fresh rres (Except.error e) conversations).result =
      ChatResult.err 500 ("LLM error: " ++ e) ∧
    findSession (chat_endpoint query fresh rres (Except.error e) conversations).store
        (resolveSessionId query.session_id fresh) =
      some ((findSession conversations (resolveSessionId query.session_id fresh)).getD [systemTurn]
        ++ (if kbHits rres = [] then []
            else [⟨"assistant", (evidenceTurn (kbHits rres)).content⟩])
        ++ [⟨"user", pyStrip (query.question.getD "")⟩]) := by
  constructor
  · simp [chat_endpoint, hq]
  · have h := findSession_chat_store query fresh rres (Except.error e) conversations hq
    simpa [newTurns, evidenceTurn] using h

theorem inference_failure_surfaces_error_witness :
    pyStrip ((some "q" : Option String).getD "") ≠ "" ∧
    (chat_endpoint ⟨some "q", some "s"⟩ "f"
        (Except.ok (some [⟨some "src", some "c", some "t"⟩]))
        (Except.error "boom") []).result =
      ChatResult.err 500 ("LLM error: " ++ "boom") ∧
    findSession (chat_endpoint ⟨some "q", some "s"⟩ "f"
        (Except.ok (some [⟨some "src", some "c", some "t"⟩]))
        (Except.error "boom") []).store "s" =
      some [systemTurn, ⟨"assistant", "CONTEXT:\n[1] src#chunkc\nt"⟩, ⟨"user", "q"⟩] := by
  have h := inference_failure_surfaces_error ⟨some "q", some "s"⟩ "f"
    (Except.ok (some [⟨some "src", some "c", some "t"⟩])) "boom" [] (by decide)
  exact ⟨by decide, h.1, h.2.trans (by decide)⟩

/-- C4: a question that is blank after trimming (empty, whitespace-only or
absent) is rejected with the empty-question error before any state mutation: no
session is created, no turn is appended, and neither the retrieval nor the
inference collaborator is called. -/
theorem blank_question_rejected (query : ChatQuery) (fresh : String)
    (rres : Except String (Option (List Snippet))) (ires : Except String String)
    (conversations : Store)
    (hq : pyStrip (query.question.getD "") = "") :
    chat_endpoint query fresh rres ires conversations =
      { result := ChatResult.err 400 "Empty question", store := conversations,
        saved := false, retrievalQuery := none, inferenceInput := none } := by
  simp [chat_endpoint, hq]

theorem blank_question_rejected_witness :
    pyStrip ((some "  " : Option String).getD "") = "" ∧
    chat_endpoint ⟨some "  ", none⟩ "f" (Except.ok (some [⟨none, none, none⟩]))
        (Except.ok "a") [("s", [systemTurn])] =
      { result := ChatResult.err 400 "Empty question",
        store := [("s", [systemTurn])],
        saved := false, retrievalQuery := none, inferenceInput := none } :=
  ⟨by decide, blank_question_rejected _ _ _ _ _ (by decide)⟩

/-- C5: a retrieval failure and an empty retrieval result are handled
identically: the exchange proceeds, no evidence turn is appended, and the
citations returned on success are empty. -/
theorem retrieval_failure_treated_as_empty (query : ChatQuery) (fresh : String)
    (ires : Except String String) (conversations : Store)
    (rres : Except String (Option (List Snippet)))
    (hr : (∃ e, rres = Except.error e) ∨ rres = Except.ok none ∨ rres = Except.ok (some []))
    (hq : pyStrip (query.question.getD "") ≠ "") :
    chat_endpoint query fresh rres ires conversations =
      chat_endpoint query fresh (Except.ok (some [])) ires conversations ∧
    findSession (chat_endpoint query fresh rres ires conversations).store
        (resolveSessionId query.session_id fresh) =
      some ((findSession conversations (resolveSessionId query.session_id fresh)).getD [systemTurn]
        ++ ⟨"user", pyStrip (query.question.getD "")⟩
          :: (match ires with | .error _ => [] | .ok ans => [⟨"assistant", ans⟩])) ∧
    (∀ ans, ires = Except.ok ans →
      (chat_endpoint query fresh rres ires conversations).result =
        ChatResult.ok ans (resolveSessionId query.session_id fresh) []) := by
  have hkb : kbHits rres = [] := by
    rcases hr with ⟨e, rfl⟩ | rfl | rfl <;> rfl
  have hkb2 : kbHits (Except.ok (some ([] : List Snippet))) = [] := rfl
  refine ⟨?_, ?_, ?_⟩
  · simp only [chat_endpoint, hkb, hkb2]
  · have h := findSession_chat_store query fresh rres ires conversations hq
    cases ires with
    | error e => simpa [newTurns, hkb] using h
    | ok ans => simpa [newTurns, hkb] using h
  · intro ans hok
    subst hok
    simp [chat_endpoint, hq, hkb, buildContext]

theorem retrieval_failure_treated_as_empty_witness :
    chat_endpoint ⟨some "q", some "s"⟩ "f" (Except.error "down") (Except.ok "a") [] =
      chat_endpoint ⟨some "q", some "s"⟩ "f" (Except.ok (some [])) (Except.ok "a") [] ∧
    findSession (chat_endpoint ⟨some "q", some "s"⟩ "f" (Except.error "down")
        (Except.ok "a") []).store "s" =
      some [systemTurn, ⟨"user", "q"⟩, ⟨"assistant", "a"⟩] ∧
    (chat_endpoint ⟨some "q", some "s"⟩ "f" (Except.error "down")
        (Except.ok "a") []).result = ChatResult.ok "a" "s" [] := by
  have h := retrieval_failure_treated_as_empty ⟨some "q", some "s"⟩ "f" (Except.ok "a") []
    (Except.error "down") (Or.inl ⟨"down", rfl⟩) (by decide)
  exact ⟨h.1, (h.2.1).trans (by decide), h.2.2 "a" rfl⟩

/-- C6: for a non-empty snippet list the evidence block content is the fixed
header followed by, for each snippet in input order with 1-based index i, the
tag "[i] source#chunk..." then a newline then the stripped text, joined by
blank-line separators, with the documented defaults for missing fields. -/
theorem evidence_block_format (query : ChatQuery) (fresh : String)
    (rres : Except String (Option (List Snippet))) (ans : String)
    (conversations : Store)
    (hq : pyStrip (query.question.getD "") ≠ "")
    (hkb : kbHits rres ≠ []) :
    findSession (chat_endpoint query fresh rres (Except.ok ans) conversations).store
        (resolveSessionId query.session_id fresh) =
      some ((findSession conversations (resolveSessionId query.session_id fresh)).getD [systemTurn]
        ++ [⟨"assistant", "CONTEXT:\n" ++ String.intercalate "\n\n"
              ((List.enumFrom 1 (kbHits rres)).map (fun p =>
                "[" ++ toString p.1 ++ "] " ++ p.2.source.getD "knowledge_base"
                  ++ "#chunk" ++ p.2.chunk_id.getD (toString p.1)
                  ++ "\n" ++ pyStrip (p.2.text.getD "")))⟩,
          ⟨"user", pyStrip (query.question.getD "")⟩, ⟨"assistant", ans⟩]) := by
  have h := findSession_chat_store query fresh rres (Except.ok ans) conversations hq
  rw [h]
  simp [newTurns, hkb, evidenceTurn, buildContext_fst]

theorem evidence_block_format_witness :
    pyStrip ((some "q" : Option String).getD "") ≠ "" ∧
    kbHits (Except.ok (some [⟨some "src", some "c7", some " tx "⟩, ⟨none, none, none⟩])) ≠ [] ∧
    findSession (chat_endpoint ⟨some "q", some "s"⟩ "f"
        (Except.ok (some [⟨some "src", some "c7", some " tx "⟩, ⟨none, none, none⟩]))
        (Except.ok "a") []).store "s" =
      some [systemTurn,
        ⟨"assistant", "CONTEXT:\n[1] src#chunkc7\ntx\n\n[2] knowledge_base#chunk2\n"⟩,
        ⟨"user", "q"⟩, ⟨"assistant", "a"⟩] := by
  have h := evidence_block_format ⟨some "q", some "s"⟩ "f"
    (Except.ok (some [⟨some "src", some "c7", some " tx "⟩, ⟨none, none, none⟩]))
    "a" [] (by decide) (by decide)
  exact ⟨by decide, by decide, h.trans (by decide)⟩

theorem buildContext_id_get (hits : List Snippet) (j i : Nat)
    (hi : i < (buildContext j hits).2.length) :
    ((buildContext j hits).2.get ⟨i, hi⟩).id = toString (j + i) := by
  induction hits generalizing j i with
  | nil => simp [buildContext] at hi
  | cons hit rest ih =>
    cases i with
    | zero => simp [buildContext]
    | succ n =>
      have hn : n < (buildContext (j + 1) rest).2.length := by
        simpa [buildContext] using hi
      have := ih (j + 1) n hn
      simpa [buildContext, Nat.add_assoc, Nat.add_comm 1 n] using this

/-- C7: on a successful exchange the citations returned to the caller are in
snippet input order, one per retrieved snippet, the i-th having id equal to the
string of its 1-based index and source/chunk_id taken from the corresponding
snippet after default-filling. -/
theorem citations_match_snippets (query : ChatQuery) (fresh : String)
    (rres : Except String (Option (List Snippet))) (ans : String)
    (conversations : Store)
    (hq : pyStrip (query.question.getD "") ≠ "") :
    ∀ cs, (chat_endpoint query fresh rres (Except.ok ans) conversations).result =
        ChatResult.ok ans (resolveSessionId query.session_id fresh) cs →
      cs = (List.enumFrom 1 (kbHits rres)).map (fun p =>
          (⟨toString p.1, p.2.source.getD "knowledge_base",
            p.2.chunk_id.getD (toString p.1)⟩ : Citation)) ∧
      cs.length = (kbHits rres).length ∧
      ∀ i (hi : i < cs.length), (cs.get ⟨i, hi⟩).id = toString (i + 1) := by
  intro cs hcs
  have hres : (chat_endpoint query fresh rres (Except.ok ans) conversations).result =
      ChatResult.ok ans (resolveSessionId query.session_id fresh)
        (buildContext 1 (kbHits rres)).2 := by
    simp [chat_endpoint, hq]
  rw [hres] at hcs
  injection hcs with h1 h2 h3
  subst h3
  refine ⟨?_, ?_, ?_⟩
  · rw [buildContext_snd]
  · rw [buildContext_snd]
    simp [List.enumFrom_length]
  · intro i hi
    have := buildContext_id_get (kbHits rres) 1 i hi
    simpa [Nat.add_comm 1 i] using this

theorem citations_match_snippets_witness :
    ([⟨"1", "src", "c7"⟩, ⟨"2", "knowledge_base", "2"⟩] : List Citation) =
      (List.enumFrom 1 (kbHits (Except.ok (some
          [⟨some "src", some "c7", some "t"⟩, ⟨none, none, none⟩])))).map (fun p =>
        (⟨toString p.1, p.2.source.getD "knowledge_base",
          p.2.chunk_id.getD (toString p.1)⟩ : Citation)) ∧
    ([⟨"1", "src", "c7"⟩, ⟨"2", "knowledge_base", "2"⟩] : List Citation).length =
      (kbHits (Except.ok (some
        [⟨some "src", some "c7", some "t"⟩, ⟨none, none, none⟩]))).length := by
  have h := citations_match_snippets ⟨some "q", some "s"⟩ "f"
    (Except.ok (some [⟨some "src", some "c7", some "t"⟩, ⟨none, none, none⟩]))
    "a" [] (by decide)
  have h2 := h [⟨"1", "src", "c7"⟩, ⟨"2", "knowledge_base", "2"⟩] (by decide)
  exact ⟨h2.1, h2.2.1⟩

/-- C8: persisting the in-memory session mapping and reloading it yields a
mapping equal to the in-memory state at the time of persist. -/
theorem store_persist_roundtrip (s : Store) :
    decodeStore (encodeStore s) = some s := by
  simp [decodeStore, encodeStore, decodeEntries_map]

/-- C9: for a non-blank question, the user turn appended to the transcript and
the query sent to the retrieval collaborator both carry the question stripped
of surrounding whitespace, not the raw input string. -/
theorem trimmed_question_used (query : ChatQuery) (fresh : String)
    (rres : Except String (Option (List Snippet))) (ires : Except String String)
    (conversations : Store)
    (hq : pyStrip (query.question.getD "") ≠ "") :
    (chat_endpoint query fresh rres ires conversations).retrievalQuery =
      some (pyStrip (query.question.getD ""), 5) ∧
    ∃ rest, findSession (chat_endpoint query fresh rres ires conversations).store
        (resolveSessionId query.session_id fresh) =
      some ((findSession conversations (resolveSessionId query.session_id fresh)).getD [systemTurn]
        ++ (if kbHits rres = [] then []
            else [⟨"assistant", (evidenceTurn (kbHits rres)).content⟩])
        ++ (⟨"user", pyStrip (query.question.getD "")⟩ :: rest)) := by
  constructor
  · cases ires <;> simp [chat_endpoint, hq]
  · have h := findSession_chat_store query fresh rres ires conversations hq
    cases ires with
    | error e =>
      refine ⟨[], ?_⟩
      simpa [newTurns, evidenceTurn] using h
    | ok ans =>
      refine ⟨[⟨"assistant", ans⟩], ?_⟩
      simpa [newTurns, evidenceTurn] using h

theorem trimmed_question_used_witness :
    pyStrip ((some " q " : Option String).getD "") ≠ "" ∧
    (chat_endpoint ⟨some " q ", some "s"⟩ "f" (Except.ok none)
        (Except.ok "a") []).retrievalQuery = some ("q", 5) := by
  have h := trimmed_question_used ⟨some " q ", some "s"⟩ "f" (Except.ok none)
    (Except.ok "a") [] (by decide)
  exact ⟨by decide, h.1.trans (by decide)⟩

/-- C10: when inference fails, `save_sessions` is never invoked: the backing
file is unchanged by the failed exchange, while the evidence and user turns
appended during it exist only in the in-memory store; any later successful
exchange does invoke the persist step. -/
theorem inference_failure_skips_persist (query : ChatQuery) (fresh : String)
    (rres : Except String (Option (List Snippet))) (e : String)
    (conversations : Store) (file : Option Json)
    (hq : pyStrip (query.question.getD "") ≠ "") :
    (chat_endpoint query fresh rres (Except.error e) conversations).saved = false ∧
    fileAfter (chat_endpoint query fresh rres (Except.error e) conversations) file = file ∧
    findSession (chat_endpoint query fresh rres (Except.error e) conversations).store
        (resolveSessionId query.session_id fresh) =
      some ((findSession conversations (resolveSessionId query.session_id fresh)).getD [systemTurn]
        ++ (if kbHits rres = [] then []
            else [⟨"assistant", (evidenceTurn (kbHits rres)).content⟩])
        ++ [⟨"user", pyStrip (query.question.getD "")⟩]) ∧
    (∀ query2 fresh2 rres2 ans2, pyStrip (query2.question.getD "") ≠ "" →
      (chat_endpoint query2 fresh2 rres2 (Except.ok ans2)
        (chat_endpoint query fresh rres (Except.error e) conversations).store).saved = true) := by
  have hs : (chat_endpoint query fresh rres (Except.error e) conversations).saved = false := by
    simp [chat_endpoint, hq]
  refine ⟨hs, ?_, ?_, ?_⟩
  · simp [fileAfter, hs]
  · have h := findSession_chat_store query fresh rres (Except.error e) conversations hq
    simpa [newTurns, evidenceTurn] using h
  · intro query2 fresh2 rres2 ans2 hq2
    simp [chat_endpoint, hq2]

theorem inference_failure_skips_persist_witness :
    pyStrip ((some "q" : Option String).getD "") ≠ "" ∧
    (chat_endpoint ⟨some "q", some "s"⟩ "f" (Except.ok none)
        (Except.error "boom") []).saved = false ∧
    fileAfter (chat_endpoint ⟨some "q", some "s"⟩ "f" (Except.ok none)
        (Except.error "boom") []) none = none := by
  have h := inference_failure_skips_persist ⟨some "q", some "s"⟩ "f" (Except.ok none)
    "boom" [] none (by decide)
  exact ⟨by decide, h.1, h.2.1⟩

end GenTaxAI
